import Mathlib

/- Verification of the automl_lab hyperparameter framework: a shallow embedding
of src/framework/base.py, src/framework/sk_models.py and the bandit engine,
with proofs of the specified properties. -/

set_option maxHeartbeats 1000000

namespace AutoMLLab

/-- Python values appearing in hyperparameter ranges and model attributes:
numbers (modelled as rationals), strings, booleans, and None. -/
inductive PyVal where
  | num (q : ℚ)
  | str (s : String)
  | bool (b : Bool)
  | none
  deriving DecidableEq, Repr

/-- Constant FLOAT = 0 from base.py. -/
def FLOAT : ℕ := 0

/-- Constant INTEGER = 1 from base.py. -/
def INTEGER : ℕ := 1

/-- Constant CATEGORICAL = 2 from base.py. -/
def CATEGORICAL : ℕ := 2

/-- Constant _PENALTY = 0 from base.py. -/
def _PENALTY : ℚ := 0

/-- Python int() truncation toward zero on a rational value. -/
def pyInt (q : ℚ) : ℤ := if 0 ≤ q then ⌊q⌋ else -⌊-q⌋

/-- Python comparison a <= b; only number-to-number comparisons are defined,
anything else is a TypeError, modelled as no result. -/
def pyLe (a b : PyVal) : Option Bool :=
  match a, b with
  | PyVal.num x, PyVal.num y => some (decide (x ≤ y))
  | _, _ => Option.none

/-- HyperParameter of base.py: a name, the stored _param_range tuple and the
param_type tag (one of FLOAT, INTEGER, CATEGORICAL). -/
structure HyperParameter where
  name : String
  paramRange : List PyVal
  param_type : ℕ
  deriving DecidableEq, Repr

/-- Classmethod HyperParameter.int_param. -/
def HyperParameter.int_param (name : String) (lo hi : ℚ) : HyperParameter :=
  ⟨name, [PyVal.num lo, PyVal.num hi], INTEGER⟩

/-- Classmethod HyperParameter.float_param. -/
def HyperParameter.float_param (name : String) (lo hi : ℚ) : HyperParameter :=
  ⟨name, [PyVal.num lo, PyVal.num hi], FLOAT⟩

/-- Classmethod HyperParameter.categorical_param. -/
def HyperParameter.categorical_param (name : String) (vs : List PyVal) : HyperParameter :=
  ⟨name, vs, CATEGORICAL⟩

/-- Property HyperParameter.param_bound: for a categorical parameter the pair
(0, len - 1); otherwise the stored range tuple itself. -/
def HyperParameter.param_bound (hp : HyperParameter) : List PyVal :=
  if hp.param_type = CATEGORICAL then
    [PyVal.num 0, PyVal.num ((hp.paramRange.length : ℚ) - 1)]
  else
    hp.paramRange

/-- HyperParameter.in_range: categorical membership is 0 <= int(value) < len;
otherwise the chained comparison range[0] <= value <= range[1], after the
assertion that the range tuple has exactly two entries. The assertion failure
and a comparison TypeError are the error cases. -/
def HyperParameter.in_range (hp : HyperParameter) (value : ℚ) : Except String Bool :=
  if hp.param_type = CATEGORICAL then
    Except.ok (decide (0 ≤ pyInt value ∧ pyInt value < (hp.paramRange.length : ℤ)))
  else if hlen : hp.paramRange.length = 2 then
    match pyLe (hp.paramRange.get ⟨0, by omega⟩) (PyVal.num value) with
    | Option.none => Except.error "TypeError"
    | some false => Except.ok false
    | some true =>
      match pyLe (PyVal.num value) (hp.paramRange.get ⟨1, by omega⟩) with
      | Option.none => Except.error "TypeError"
      | some b => Except.ok b
  else Except.error "AssertionError"

/-- HyperParameter.convert_raw_param: cast to int, to float, or resolve a
categorical index by Python sequence indexing (a negative index wraps from the
end, an out-of-bounds index is an IndexError); any other type tag hits the
assert False. -/
def HyperParameter.convert_raw_param (hp : HyperParameter) (raw : ℚ) : Except String PyVal :=
  if hp.param_type = INTEGER then
    Except.ok (PyVal.num (pyInt raw : ℚ))
  else if hp.param_type = FLOAT then
    Except.ok (PyVal.num raw)
  else if hp.param_type = CATEGORICAL then
    if h : 0 ≤ pyInt raw ∧ pyInt raw < (hp.paramRange.length : ℤ) then
      Except.ok (hp.paramRange.get ⟨(pyInt raw).toNat, by omega⟩)
    else if h2 : -(hp.paramRange.length : ℤ) ≤ pyInt raw ∧ pyInt raw < 0 then
      Except.ok (hp.paramRange.get ⟨((hp.paramRange.length : ℤ) + pyInt raw).toNat, by omega⟩)
    else Except.error "IndexError"
  else Except.error "AssertionError"

/-- HyperParameter.retrieve_raw_param: for a categorical parameter the quadruple
[0, 0, CATEGORICAL, list(range(len))]; otherwise the tuple unpacking of
param_bound, which fails unless the bound has exactly two entries. -/
def HyperParameter.retrieve_raw_param (hp : HyperParameter) :
    Except String (PyVal × PyVal × ℕ × Option (List ℕ)) :=
  if hp.param_type = CATEGORICAL then
    Except.ok (PyVal.num 0, PyVal.num 0, CATEGORICAL, some (List.range hp.paramRange.length))
  else
    match hp.param_bound with
    | [a, b] => Except.ok (a, b, hp.param_type, Option.none)
    | _ => Except.error "ValueError"

/-- HyperParameter.is_int_type. -/
def HyperParameter.is_int_type (hp : HyperParameter) : Bool := hp.param_type == INTEGER

/-- HyperParameter.is_float_type. -/
def HyperParameter.is_float_type (hp : HyperParameter) : Bool := hp.param_type == FLOAT

/-- HyperParameter.is_categorical_type. -/
def HyperParameter.is_categorical_type (hp : HyperParameter) : Bool :=
  hp.param_type == CATEGORICAL

/-- A scikit-learn estimator object, modelled by its attribute assignments: a
list of (attribute name, value) pairs in assignment order, a later assignment
shadowing an earlier one. -/
structure SKModel where
  attrs : List (String × PyVal)
  deriving DecidableEq, Repr

/-- Python hasattr on the modelled estimator. -/
def SKModel.hasattr (m : SKModel) (name : String) : Bool :=
  m.attrs.any (fun p => p.1 == name)

/-- Python setattr on the modelled estimator: record the assignment. -/
def SKModel.setattr (m : SKModel) (name : String) (v : PyVal) : SKModel :=
  ⟨m.attrs ++ [(name, v)]⟩

/-- Python getattr on the modelled estimator: the most recent assignment. -/
def SKModel.getattr (m : SKModel) (name : String) : Option PyVal :=
  (m.attrs.reverse.find? (fun p => p.1 == name)).map Prod.snd

/-- SKLearnModelGenerator of sk_models.py: the ordered hyperparameter space and
the model initializer, whose call yields the fresh estimator. -/
structure SKLearnModelGenerator where
  hp_space : List HyperParameter
  model_initializer : SKModel

/-- The parameter-setting loop of SKLearnModelGenerator.generate_model over the
zipped (value, param) pairs: raise ValueError when in_range rejects a value,
assert hasattr, then setattr the converted value; errors raised by in_range or
convert_raw_param propagate. -/
def setParams : SKModel → List (ℚ × HyperParameter) → Except String SKModel
  | m, [] => Except.ok m
  | m, (value, param) :: rest =>
    match param.in_range value with
    | Except.error e => Except.error e
    | Except.ok false => Except.error ("ValueError: " ++ param.name)
    | Except.ok true =>
      if m.hasattr param.name then
        match param.convert_raw_param value with
        | Except.error e => Except.error e
        | Except.ok v => setParams (m.setattr param.name v) rest
      else Except.error "AssertionError"

/-- SKLearnModelGenerator.generate_model: take a fresh model from the
initializer, assert that the parameter vector has the same length as the
hyperparameter space, then check and set each parameter in order. -/
def SKLearnModelGenerator.generate_model (gen : SKLearnModelGenerator)
    (param_values : List ℚ) : Except String SKModel :=
  if param_values.length = gen.hp_space.length then
    setParams gen.model_initializer (param_values.zip gen.hp_space)
  else Except.error "AssertionError"

/-- Whether a call returned normally rather than raising. -/
def exceptOk {α : Type} : Except String α → Bool
  | Except.ok _ => true
  | Except.error _ => false

/-- One cross-validation fold of ModelEvaluator.evaluate: the collected train
and validation portions of the training data. -/
structure Fold where
  train_x : List (List ℚ)
  train_y : List ℚ
  valid_x : List (List ℚ)
  valid_y : List ℚ

/-- The externally supplied behaviour of a trainable estimator of state M:
fit returns the fitted estimator or raises ValueError; predict maps validation
features to predictions. -/
structure MLOps (M : Type) where
  fit : M → List (List ℚ) → List ℚ → Except String M
  predict : M → List (List ℚ) → List ℚ

/-- sklearn.metrics.accuracy_score: the fraction of positions where the
prediction equals the label. -/
def accuracy_score (y_true y_pred : List ℚ) : ℚ :=
  (((y_true.zip y_pred).filter (fun p => decide (p.1 = p.2))).length : ℚ) /
    (y_true.length : ℚ)

/-- numpy mean of a list of floats; the mean of an empty list is NaN, modelled
as no result. -/
def npMean (l : List ℚ) : Option ℚ :=
  if l.isEmpty then Option.none else some (l.sum / (l.length : ℚ))

/-- The fold loop of ModelEvaluator.evaluate: per fold, refit the carried model
on the fold's train part, returning the _PENALTY reward as soon as fit raises
ValueError; otherwise predict on the validation part and score by the
criterion (auc abstracts sklearn's roc_auc_score); finally average the
collected values. -/
def evalFolds {M : Type} (ops : MLOps M) (auc : List ℚ → List ℚ → ℚ)
    (criterion : String) : M → List Fold → List ℚ → Option ℚ
  | _, [], acc => npMean acc.reverse
  | m, f :: rest, acc =>
    match ops.fit m f.train_x f.train_y with
    | Except.error _ => some _PENALTY
    | Except.ok m2 =>
      let preds := ops.predict m2 f.valid_x
      let v :=
        if criterion = "accuracy" then accuracy_score f.valid_y preds
        else if criterion = "auc" then auc f.valid_y preds
        else 0
      evalFolds ops auc criterion m2 rest (v :: acc)

/-- ModelEvaluator.evaluate: generate the model from the hyperparameter vector
(an error there propagates), then run the fold loop over the materialized
stratified k-fold split. The outer Except is an escaping exception; the inner
Option is the float result (none being NaN). -/
def ModelEvaluator.evaluate (gen : SKLearnModelGenerator) (ops : MLOps SKModel)
    (auc : List ℚ → List ℚ → ℚ) (criterion : String) (folds : List Fold)
    (x : List ℚ) : Except String (Option ℚ) :=
  match gen.generate_model x with
  | Except.error e => Except.error e
  | Except.ok m => Except.ok (evalFolds ops auc criterion m folds [])

/-- Whether the sequential fold fitting raises ValueError at some fold. -/
def fitErrors {M : Type} (ops : MLOps M) : M → List Fold → Bool
  | _, [] => false
  | m, f :: rest =>
    match ops.fit m f.train_x f.train_y with
    | Except.error _ => true
    | Except.ok m2 => fitErrors ops m2 rest

/-- The per-fold scores of an error-free evaluation: each fold scored by the
criterion on its validation part, the model carried through successive fits. -/
def foldScores {M : Type} (ops : MLOps M) (auc : List ℚ → List ℚ → ℚ)
    (criterion : String) : M → List Fold → List ℚ
  | _, [] => []
  | m, f :: rest =>
    match ops.fit m f.train_x f.train_y with
    | Except.error _ => []
    | Except.ok m2 =>
      let preds := ops.predict m2 f.valid_x
      (if criterion = "accuracy" then accuracy_score f.valid_y preds
        else if criterion = "auc" then auc f.valid_y preds
        else 0) :: foldScores ops auc criterion m2 rest

/-- data_collector of base.py: re-collect features and labels according to the
index list. Arrays are modelled as lists; the zeros pre-allocation supplies the
defaults, which valid indices always overwrite. -/
def data_collector (index_list : List ℕ) (features : List (List ℚ))
    (labels : List ℚ) : List (List ℚ) × List ℚ :=
  (index_list.map (fun idx =>
      features.getD idx (List.replicate (features.headD []).length 0)),
    index_list.map (fun idx => labels.getD idx 0))

/-- Modelled from the spec: the arm selection of BanditModelSelection
(src/bandit/model_selection.py is not present under src). Every policy
force-pulls each arm once before applying its main formula: while some arm has
a zero pull count a zero-count arm is selected (the least-index one, matching
the forced-initialization order); afterwards the policy's main formula,
abstracted as the function pick of the current counts, chooses the arm. -/
def selectArm {k : ℕ} (pick : (Fin k → ℕ) → Fin k) (c : Fin k → ℕ) : Fin k :=
  match (List.finRange k).find? (fun j => decide (c j = 0)) with
  | some j => j
  | Option.none => pick c

/-- Modelled from the spec: one fit iteration of BanditModelSelection —
policy.select chooses an arm, whose pull count is incremented by the pull. -/
def pullStep {k : ℕ} (pick : (Fin k → ℕ) → Fin k) (c : Fin k → ℕ) : Fin k → ℕ :=
  Function.update c (selectArm pick c) (c (selectArm pick c) + 1)

/-- Modelled from the spec: the per-arm pull counts after n iterations of
BanditModelSelection.fit, which starts from all-zero counts and executes exactly
budget sequential iterations. -/
def banditCounts {k : ℕ} (pick : (Fin k → ℕ) → Fin k) : ℕ → (Fin k → ℕ)
  | 0 => fun _ => 0
  | Nat.succ n => pullStep pick (banditCounts pick n)

/-- State-reading form of HyperParameter.param_bound: the method reads self and
never writes it. -/
def HyperParameter.param_boundM : StateM HyperParameter (List PyVal) := do
  let self ← get
  pure self.param_bound

/-- State-reading form of HyperParameter.in_range. -/
def HyperParameter.in_rangeM (value : ℚ) : StateM HyperParameter (Except String Bool) := do
  let self ← get
  pure (self.in_range value)

/-- State-reading form of HyperParameter.convert_raw_param. -/
def HyperParameter.convert_raw_paramM (raw : ℚ) :
    StateM HyperParameter (Except String PyVal) := do
  let self ← get
  pure (self.convert_raw_param raw)

/-- State-reading form of HyperParameter.retrieve_raw_param. -/
def HyperParameter.retrieve_raw_paramM :
    StateM HyperParameter (Except String (PyVal × PyVal × ℕ × Option (List ℕ))) := do
  let self ← get
  pure self.retrieve_raw_param

/-- State-reading form of HyperParameter.is_int_type. -/
def HyperParameter.is_int_typeM : StateM HyperParameter Bool := do
  let self ← get
  pure self.is_int_type

/-- State-reading form of HyperParameter.is_float_type. -/
def HyperParameter.is_float_typeM : StateM HyperParameter Bool := do
  let self ← get
  pure self.is_float_type

/-- State-reading form of HyperParameter.is_categorical_type. -/
def HyperParameter.is_categorical_typeM : StateM HyperParameter Bool := do
  let self ← get
  pure self.is_categorical_type

/-- Fixture: a generator with an empty hyperparameter space over an
attribute-free fresh estimator. -/
def gen0 : SKLearnModelGenerator := ⟨[], ⟨[]⟩⟩

/-- Fixture: an estimator whose fit always raises ValueError. -/
def opsErr : MLOps SKModel := ⟨fun _ _ _ => Except.error "ValueError", fun _ _ => []⟩

/-- Fixture: an estimator whose fit always succeeds and which predicts 0. -/
def opsId : MLOps SKModel := ⟨fun m _ _ => Except.ok m, fun _ vx => vx.map (fun _ => 0)⟩

/-- Fixture: a one-row fold. -/
def fold1 : Fold := ⟨[[1]], [0], [[1]], [0]⟩

/-- Fixture: a trivial roc_auc_score stand-in. -/
def aucZero : List ℚ → List ℚ → ℚ := fun _ _ => 0

/-- Fixture: the criterion parameter of the DecisionTree space, with the two
categories gini and entropy. -/
def dtCriterion : HyperParameter :=
  HyperParameter.categorical_param "criterion" [PyVal.str "gini", PyVal.str "entropy"]

/-- Fixture: a fresh DecisionTreeClassifier, holding its criterion default. -/
def dtModel : SKModel := ⟨[("criterion", PyVal.str "gini")]⟩

/-- Fixture: a generator over the single criterion parameter. -/
def dtGen : SKLearnModelGenerator := ⟨[dtCriterion], dtModel⟩

/-- The value generate_model assigns for one (value, param) pair. -/
def convertedVal (p : ℚ × HyperParameter) : PyVal :=
  match p.2.convert_raw_param p.1 with
  | Except.ok v => v
  | Except.error _ => PyVal.none

/-- Truncation of a natural-number-valued rational is the number itself. -/
theorem pyInt_natCast (n : ℕ) : pyInt (n : ℚ) = n := by
  simp [pyInt]

example : pyInt 5 = 5 := by norm_num [pyInt]
example : pyInt (7/2 : ℚ) = 3 := by norm_num [pyInt]
example : pyInt (-7/2 : ℚ) = -3 := by norm_num [pyInt]
example : (HyperParameter.int_param "d" 1 3).in_range 2 = Except.ok true := by
  norm_num [HyperParameter.in_range, HyperParameter.int_param, INTEGER, CATEGORICAL, pyLe]
example : dtCriterion.in_range 5 = Except.ok false := by rfl
example : dtCriterion.in_range 0 = Except.ok true := by rfl

/-- Helper: getD through map at an in-bounds index. -/
theorem getD_map_lt {α β : Type} (f : α → β) (l : List α) (i : ℕ) (d0 : α) (d : β)
    (h : i < l.length) : (l.map f).getD i d = f (l.getD i d0) := by
  induction l generalizing i with
  | nil => simp at h
  | cons a t ih =>
    cases i with
    | zero => simp [List.getD]
    | succ n =>
      simp only [List.length_cons, Nat.succ_lt_succ_iff] at h
      simp only [List.map_cons, List.getD_cons_succ]
      exact ih n h

/-- Helper: getD at an in-bounds index is a member of the list. -/
theorem getD_mem_of_lt {α : Type} (l : List α) (i : ℕ) (d : α) (h : i < l.length) :
    l.getD i d ∈ l := by
  rw [List.getD_eq_getElem l d h]
  exact List.getElem_mem h

/-- Claim C6: in_range decides legal-range membership with inclusive bounds:
an integer- or real-typed parameter with bound (lo, hi) accepts v exactly when
lo ≤ v ≤ hi, and a categorical parameter with k allowed values accepts v
exactly when 0 ≤ int(v) < k. -/
theorem in_range_inclusive_bounds (nm1 nm2 : String) (t : ℕ) (lo hi v : ℚ)
    (vs : List PyVal) (ht : t = INTEGER ∨ t = FLOAT) :
    (HyperParameter.mk nm1 [PyVal.num lo, PyVal.num hi] t).in_range v
        = Except.ok (decide (lo ≤ v ∧ v ≤ hi)) ∧
    (HyperParameter.mk nm2 vs CATEGORICAL).in_range v
        = Except.ok (decide (0 ≤ pyInt v ∧ pyInt v < (vs.length : ℤ))) := by
  constructor
  · have ht2 : ¬ t = CATEGORICAL := by
      rcases ht with h | h <;> simp [h, INTEGER, FLOAT, CATEGORICAL]
    by_cases h1 : lo ≤ v
    · by_cases h2 : v ≤ hi
      · simp [HyperParameter.in_range, ht2, pyLe, h1, h2]
      · simp [HyperParameter.in_range, ht2, pyLe, h1, h2]
    · have h3 : ¬ (lo ≤ v ∧ v ≤ hi) := fun hc => h1 hc.1
      simp [HyperParameter.in_range, ht2, pyLe, h1, h3]
  · rfl

/-- Witness for C6: the DecisionTree max_depth bound (1, 40) at value 7, and
the two-category criterion parameter at value 7. -/
theorem in_range_inclusive_bounds_witness :
    (INTEGER = INTEGER ∨ INTEGER = FLOAT) ∧
    ((HyperParameter.mk "max_depth" [PyVal.num 1, PyVal.num 40] INTEGER).in_range 7
        = Except.ok (decide ((1 : ℚ) ≤ 7 ∧ (7 : ℚ) ≤ 40)) ∧
      (HyperParameter.mk "criterion" [PyVal.str "gini", PyVal.str "entropy"]
          CATEGORICAL).in_range 7
        = Except.ok (decide (0 ≤ pyInt 7 ∧ pyInt 7
            < (([PyVal.str "gini", PyVal.str "entropy"] : List PyVal).length : ℤ)))) :=
  ⟨Or.inl rfl,
    in_range_inclusive_bounds "max_depth" "criterion" INTEGER 1 40 7
      [PyVal.str "gini", PyVal.str "entropy"] (Or.inl rfl)⟩

/-- Claim C7: for a categorical parameter with k allowed values, param_bound is
the inclusive index bound (0, k - 1), and convert_raw_param resolves each index
0 ≤ i < k to the i-th allowed value in the ordered category list. -/
theorem categorical_bound_and_convert (nm : String) (vs : List PyVal) (i : ℕ)
    (h : i < vs.length) :
    (HyperParameter.mk nm vs CATEGORICAL).param_bound
      = [PyVal.num 0, PyVal.num ((vs.length : ℚ) - 1)] ∧
    (HyperParameter.mk nm vs CATEGORICAL).convert_raw_param (i : ℚ)
      = Except.ok (vs.get ⟨i, h⟩) := by
  refine ⟨rfl, ?_⟩
  simp only [HyperParameter.convert_raw_param, INTEGER, FLOAT, CATEGORICAL,
    pyInt_natCast]
  norm_num
  rw [dif_pos h]

/-- Witness for C7: the three-category max_features parameter at index 2. -/
theorem categorical_bound_and_convert_witness :
    (2 < ([PyVal.str "sqrt", PyVal.str "log2", PyVal.none] : List PyVal).length) ∧
    ((HyperParameter.mk "max_features" [PyVal.str "sqrt", PyVal.str "log2", PyVal.none]
          CATEGORICAL).param_bound
        = [PyVal.num 0, PyVal.num ((([PyVal.str "sqrt", PyVal.str "log2", PyVal.none] :
            List PyVal).length : ℚ) - 1)] ∧
      (HyperParameter.mk "max_features" [PyVal.str "sqrt", PyVal.str "log2", PyVal.none]
          CATEGORICAL).convert_raw_param ((2 : ℕ) : ℚ)
        = Except.ok (([PyVal.str "sqrt", PyVal.str "log2", PyVal.none] :
            List PyVal).get ⟨2, by decide⟩)) :=
  ⟨by decide,
    categorical_bound_and_convert "max_features"
      [PyVal.str "sqrt", PyVal.str "log2", PyVal.none] 2 (by decide)⟩

/-- Claim C8: HyperParameter is immutable once constructed: param_bound,
in_range, convert_raw_param, retrieve_raw_param, is_int_type, is_float_type and
is_categorical_type all leave the object unchanged, and repeating any of them
with the same arguments yields the same result. -/
theorem hyperparameter_immutable (hp : HyperParameter) (v raw : ℚ) :
    ((HyperParameter.param_boundM.run hp).2 = hp ∧
      (HyperParameter.param_boundM.run ((HyperParameter.param_boundM.run hp).2)).1
        = (HyperParameter.param_boundM.run hp).1) ∧
    (((HyperParameter.in_rangeM v).run hp).2 = hp ∧
      ((HyperParameter.in_rangeM v).run (((HyperParameter.in_rangeM v).run hp).2)).1
        = ((HyperParameter.in_rangeM v).run hp).1) ∧
    (((HyperParameter.convert_raw_paramM raw).run hp).2 = hp ∧
      ((HyperParameter.convert_raw_paramM raw).run
          (((HyperParameter.convert_raw_paramM raw).run hp).2)).1
        = ((HyperParameter.convert_raw_paramM raw).run hp).1) ∧
    ((HyperParameter.retrieve_raw_paramM.run hp).2 = hp ∧
      (HyperParameter.retrieve_raw_paramM.run
          ((HyperParameter.retrieve_raw_paramM.run hp).2)).1
        = (HyperParameter.retrieve_raw_paramM.run hp).1) ∧
    ((HyperParameter.is_int_typeM.run hp).2 = hp ∧
      (HyperParameter.is_int_typeM.run ((HyperParameter.is_int_typeM.run hp).2)).1
        = (HyperParameter.is_int_typeM.run hp).1) ∧
    ((HyperParameter.is_float_typeM.run hp).2 = hp ∧
      (HyperParameter.is_float_typeM.run ((HyperParameter.is_float_typeM.run hp).2)).1
        = (HyperParameter.is_float_typeM.run hp).1) ∧
    ((HyperParameter.is_categorical_typeM.run hp).2 = hp ∧
      (HyperParameter.is_categorical_typeM.run
          ((HyperParameter.is_categorical_typeM.run hp).2)).1
        = (HyperParameter.is_categorical_typeM.run hp).1) :=
  ⟨⟨rfl, rfl⟩, ⟨rfl, rfl⟩, ⟨rfl, rfl⟩, ⟨rfl, rfl⟩, ⟨rfl, rfl⟩, ⟨rfl, rfl⟩, ⟨rfl, rfl⟩⟩

/-- Claim C10: data_collector returns a feature matrix of shape
(len(index_list), feature_dim) and a label vector of length len(index_list),
whose i-th row and label are the original row and label at index_list[i]. -/
theorem data_collector_spec (index_list : List ℕ) (features : List (List ℚ))
    (labels : List ℚ) (dim : ℕ)
    (hrect : ∀ row ∈ features, row.length = dim)
    (hfi : ∀ idx ∈ index_list, idx < features.length)
    (hli : ∀ idx ∈ index_list, idx < labels.length) :
    (data_collector index_list features labels).1.length = index_list.length ∧
    (data_collector index_list features labels).2.length = index_list.length ∧
    (∀ row ∈ (data_collector index_list features labels).1, row.length = dim) ∧
    (∀ i, i < index_list.length →
      (data_collector index_list features labels).1.getD i []
          = features.getD (index_list.getD i 0) [] ∧
      (data_collector index_list features labels).2.getD i 0
          = labels.getD (index_list.getD i 0) 0) := by
  refine ⟨by simp [data_collector], by simp [data_collector], ?_, ?_⟩
  · intro row hrow
    simp only [data_collector, List.mem_map] at hrow
    obtain ⟨idx, hidx, rfl⟩ := hrow
    have hlt := hfi idx hidx
    rw [List.getD_eq_getElem features _ hlt]
    exact hrect _ (List.getElem_mem hlt)
  · intro i hi
    have hmem : index_list.getD i 0 ∈ index_list := getD_mem_of_lt _ _ _ hi
    have hltf := hfi _ hmem
    have hltl := hli _ hmem
    constructor
    · show (List.map _ index_list).getD i [] = _
      rw [getD_map_lt _ _ _ 0 _ hi]
      rw [List.getD_eq_getElem features _ hltf, List.getD_eq_getElem features _ hltf]
    · show (List.map _ index_list).getD i 0 = _
      rw [getD_map_lt _ _ _ 0 _ hi]

/-- Witness for C10: collecting rows 1 and 0 of a concrete 2 by 2 matrix. -/
theorem data_collector_spec_witness :
    ((∀ row ∈ ([[1, 2], [3, 4]] : List (List ℚ)), row.length = 2) ∧
      (∀ idx ∈ [1, 0], idx < ([[1, 2], [3, 4]] : List (List ℚ)).length) ∧
      (∀ idx ∈ [1, 0], idx < ([5, 6] : List ℚ).length)) ∧
    ((data_collector [1, 0] [[1, 2], [3, 4]] [5, 6]).1.length = [1, 0].length ∧
      (data_collector [1, 0] [[1, 2], [3, 4]] [5, 6]).2.length = [1, 0].length ∧
      (∀ row ∈ (data_collector [1, 0] [[1, 2], [3, 4]] [5, 6]).1, row.length = 2) ∧
      (∀ i, i < [1, 0].length →
        (data_collector [1, 0] [[1, 2], [3, 4]] [5, 6]).1.getD i []
            = ([[1, 2], [3, 4]] : List (List ℚ)).getD ([1, 0].getD i 0) [] ∧
        (data_collector [1, 0] [[1, 2], [3, 4]] [5, 6]).2.getD i 0
            = ([5, 6] : List ℚ).getD ([1, 0].getD i 0) 0)) :=
  ⟨⟨by decide, by decide, by decide⟩,
    data_collector_spec [1, 0] [[1, 2], [3, 4]] [5, 6] 2
      (by decide) (by decide) (by decide)⟩

/-- Helper: once the sequential fitting raises ValueError at some fold, the
fold loop returns the penalty reward, whatever was accumulated so far. -/
theorem evalFolds_penalty {M : Type} (ops : MLOps M) (auc : List ℚ → List ℚ → ℚ)
    (criterion : String) :
    ∀ (folds : List Fold) (m : M) (acc : List ℚ), fitErrors ops m folds = true →
      evalFolds ops auc criterion m folds acc = some _PENALTY := by
  intro folds
  induction folds with
  | nil => intro m acc h; simp [fitErrors] at h
  | cons f rest ih =>
    intro m acc h
    cases hfit : ops.fit m f.train_x f.train_y with
    | error e => simp [evalFolds, hfit]
    | ok m2 =>
      simp only [fitErrors, hfit] at h
      simp only [evalFolds, hfit]
      exact ih m2 _ h

/-- Helper: an error-free fold loop returns the mean of the accumulated values
followed by the per-fold scores. -/
theorem evalFolds_mean {M : Type} (ops : MLOps M) (auc : List ℚ → List ℚ → ℚ)
    (criterion : String) :
    ∀ (folds : List Fold) (m : M) (acc : List ℚ), fitErrors ops m folds = false →
      evalFolds ops auc criterion m folds acc
        = npMean (acc.reverse ++ foldScores ops auc criterion m folds) := by
  intro folds
  induction folds with
  | nil => intro m acc h; simp [evalFolds, foldScores]
  | cons f rest ih =>
    intro m acc h
    cases hfit : ops.fit m f.train_x f.train_y with
    | error e => simp [fitErrors, hfit] at h
    | ok m2 =>
      simp only [fitErrors, hfit] at h
      simp only [evalFolds, foldScores, hfit]
      rw [ih m2 _ h]
      simp [List.reverse_cons, List.append_assoc]

/-- Helper: an error-free run yields one score per fold. -/
theorem foldScores_length {M : Type} (ops : MLOps M) (auc : List ℚ → List ℚ → ℚ)
    (criterion : String) :
    ∀ (folds : List Fold) (m : M), fitErrors ops m folds = false →
      (foldScores ops auc criterion m folds).length = folds.length := by
  intro folds
  induction folds with
  | nil => intro m h; simp [foldScores]
  | cons f rest ih =>
    intro m h
    cases hfit : ops.fit m f.train_x f.train_y with
    | error e => simp [fitErrors, hfit] at h
    | ok m2 =>
      simp only [fitErrors, hfit] at h
      simp only [foldScores, hfit, List.length_cons]
      rw [ih m2 h]

/-- Helper: under an unrecognized criterion every fold scores 0. -/
theorem foldScores_unknown_criterion {M : Type} (ops : MLOps M)
    (auc : List ℚ → List ℚ → ℚ) (criterion : String)
    (hc1 : criterion ≠ "accuracy") (hc2 : criterion ≠ "auc") :
    ∀ (folds : List Fold) (m : M), fitErrors ops m folds = false →
      foldScores ops auc criterion m folds = List.replicate folds.length 0 := by
  intro folds
  induction folds with
  | nil => intro m h; simp [foldScores]
  | cons f rest ih =>
    intro m h
    cases hfit : ops.fit m f.train_x f.train_y with
    | error e => simp [fitErrors, hfit] at h
    | ok m2 =>
      simp only [fitErrors, hfit] at h
      simp only [foldScores, hfit, hc1, hc2, if_false, List.replicate]
      rw [ih m2 h]

/-- Claim C1: when the underlying model rejects the sampled configuration at
fit time with ValueError, evaluate returns the fixed penalty reward 0 and no
exception escapes. -/
theorem evaluate_penalty_on_fit_error (gen : SKLearnModelGenerator)
    (ops : MLOps SKModel) (auc : List ℚ → List ℚ → ℚ) (criterion : String)
    (folds : List Fold) (x : List ℚ) (m : SKModel)
    (hgen : gen.generate_model x = Except.ok m)
    (herr : fitErrors ops m folds = true) :
    ModelEvaluator.evaluate gen ops auc criterion folds x = Except.ok (some 0) := by
  simp only [ModelEvaluator.evaluate, hgen]
  rw [evalFolds_penalty ops auc criterion folds m [] herr]
  rfl

/-- Witness for C1: a concrete evaluation whose only fold's fit raises. -/
theorem evaluate_penalty_on_fit_error_witness :
    (gen0.generate_model [] = Except.ok ⟨[]⟩ ∧
      fitErrors opsErr ⟨[]⟩ [fold1] = true) ∧
    ModelEvaluator.evaluate gen0 opsErr aucZero "accuracy" [fold1] []
      = Except.ok (some 0) :=
  ⟨⟨rfl, rfl⟩,
    evaluate_penalty_on_fit_error gen0 opsErr aucZero "accuracy" [fold1] [] ⟨[]⟩
      rfl rfl⟩

/-- Claim C4: whenever no fold's fit raises, evaluate under the accuracy
criterion returns the arithmetic mean of the per-fold accuracy scores over the
k-fold split of the training data. -/
theorem evaluate_accuracy_is_fold_mean (gen : SKLearnModelGenerator)
    (ops : MLOps SKModel) (auc : List ℚ → List ℚ → ℚ) (folds : List Fold)
    (x : List ℚ) (m : SKModel)
    (hgen : gen.generate_model x = Except.ok m)
    (hnoerr : fitErrors ops m folds = false) (hne : folds ≠ []) :
    ModelEvaluator.evaluate gen ops auc "accuracy" folds x
      = Except.ok (some ((foldScores ops auc "accuracy" m folds).sum
          / ((foldScores ops auc "accuracy" m folds).length : ℚ))) ∧
    (foldScores ops auc "accuracy" m folds).length = folds.length := by
  have hlen := foldScores_length ops auc "accuracy" folds m hnoerr
  refine ⟨?_, hlen⟩
  simp only [ModelEvaluator.evaluate, hgen]
  rw [evalFolds_mean ops auc "accuracy" folds m [] hnoerr]
  have hne2 : foldScores ops auc "accuracy" m folds ≠ [] := by
    intro hempty
    rw [hempty] at hlen
    exact hne (List.eq_nil_of_length_eq_zero hlen.symm)
  simp [npMean, hne2]

/-- Witness for C4: a concrete one-fold evaluation with no fit failure. -/
theorem evaluate_accuracy_is_fold_mean_witness :
    (gen0.generate_model [] = Except.ok ⟨[]⟩ ∧
      fitErrors opsId ⟨[]⟩ [fold1] = false ∧ ([fold1] : List Fold) ≠ []) ∧
    (ModelEvaluator.evaluate gen0 opsId aucZero "accuracy" [fold1] []
        = Except.ok (some ((foldScores opsId aucZero "accuracy" ⟨[]⟩ [fold1]).sum
            / ((foldScores opsId aucZero "accuracy" ⟨[]⟩ [fold1]).length : ℚ))) ∧
      (foldScores opsId aucZero "accuracy" ⟨[]⟩ [fold1]).length = [fold1].length) :=
  ⟨⟨rfl, rfl, List.cons_ne_nil fold1 []⟩,
    evaluate_accuracy_is_fold_mean gen0 opsId aucZero [fold1] [] ⟨[]⟩ rfl rfl
      (List.cons_ne_nil fold1 [])⟩

/-- Claim C9: under a criterion other than accuracy and auc, an evaluation in
which no fold's fit raises scores every fold as 0.0 and returns mean 0, with no
error for the unrecognized criterion. -/
theorem evaluate_unknown_criterion_zero (gen : SKLearnModelGenerator)
    (ops : MLOps SKModel) (auc : List ℚ → List ℚ → ℚ) (criterion : String)
    (folds : List Fold) (x : List ℚ) (m : SKModel)
    (hc1 : criterion ≠ "accuracy") (hc2 : criterion ≠ "auc")
    (hgen : gen.generate_model x = Except.ok m)
    (hnoerr : fitErrors ops m folds = false) (hne : folds ≠ []) :
    ModelEvaluator.evaluate gen ops auc criterion folds x = Except.ok (some 0) := by
  simp only [ModelEvaluator.evaluate, hgen]
  rw [evalFolds_mean ops auc criterion folds m [] hnoerr]
  rw [List.reverse_nil, List.nil_append,
    foldScores_unknown_criterion ops auc criterion hc1 hc2 folds m hnoerr]
  have hne2 : folds.length ≠ 0 := fun hl => hne (List.eq_nil_of_length_eq_zero hl)
  simp [npMean, List.isEmpty_iff, hne2, List.sum_replicate]

/-- Witness for C9: a concrete one-fold evaluation under the criterion f1. -/
theorem evaluate_unknown_criterion_zero_witness :
    (("f1" : String) ≠ "accuracy" ∧ ("f1" : String) ≠ "auc" ∧
      gen0.generate_model [] = Except.ok ⟨[]⟩ ∧
      fitErrors opsId ⟨[]⟩ [fold1] = false ∧ ([fold1] : List Fold) ≠ []) ∧
    ModelEvaluator.evaluate gen0 opsId aucZero "f1" [fold1] []
      = Except.ok (some 0) :=
  ⟨⟨by decide, by decide, rfl, rfl, List.cons_ne_nil fold1 []⟩,
    evaluate_unknown_criterion_zero gen0 opsId aucZero "f1" [fold1] [] ⟨[]⟩
      (by decide) (by decide) rfl rfl (List.cons_ne_nil fold1 [])⟩

/-- Helper: setattr only adds attributes, so hasattr is monotone. -/
theorem hasattr_setattr (m : SKModel) (nm nm2 : String) (v : PyVal)
    (h : m.hasattr nm = true) : (m.setattr nm2 v).hasattr nm = true := by
  simp only [SKModel.hasattr, SKModel.setattr, List.any_append, Bool.or_eq_true]
  exact Or.inl h

/-- Helper: a parameter of one of the three known types whose value passes
in_range converts without error. -/
theorem convert_ok_of_in_range (hp : HyperParameter) (v : ℚ)
    (htype : hp.param_type < 3) (hin : hp.in_range v = Except.ok true) :
    hp.convert_raw_param v = Except.ok (convertedVal (v, hp)) := by
  obtain ⟨nm, rng, t⟩ := hp
  interval_cases t
  · simp [HyperParameter.convert_raw_param, convertedVal, INTEGER, FLOAT]
  · simp [HyperParameter.convert_raw_param, convertedVal, INTEGER, FLOAT]
  · have hP : 0 ≤ pyInt v ∧ pyInt v < (rng.length : ℤ) := by
      have := hin
      simp only [HyperParameter.in_range, CATEGORICAL, if_true, reduceIte,
        Except.ok.injEq] at this
      exact of_decide_eq_true this
    simp only [HyperParameter.convert_raw_param, convertedVal, INTEGER, FLOAT,
      CATEGORICAL, reduceIte]
    rw [dif_pos hP]
    simp

/-- Helper: when every pair passes in_range, names an attribute of the fresh
model and has a known type, setParams succeeds and appends exactly the
converted assignments. -/
theorem setParams_ok :
    ∀ (pairs : List (ℚ × HyperParameter)) (m : SKModel),
      (∀ p ∈ pairs, p.2.in_range p.1 = Except.ok true ∧
        m.hasattr p.2.name = true ∧ p.2.param_type < 3) →
      setParams m pairs
        = Except.ok ⟨m.attrs ++ pairs.map (fun p => (p.2.name, convertedVal p))⟩ := by
  intro pairs
  induction pairs with
  | nil => intro m _; simp [setParams]
  | cons p rest ih =>
    intro m h
    obtain ⟨hin, hattr, htype⟩ := h p (List.mem_cons_self p rest)
    obtain ⟨value, param⟩ := p
    simp only [setParams, hin, hattr, if_true, convert_ok_of_in_range param value htype hin]
    rw [ih (m.setattr param.name (convertedVal (value, param)))
      (fun q hq => ⟨(h q (List.mem_cons_of_mem _ hq)).1,
        hasattr_setattr m q.2.name param.name _ (h q (List.mem_cons_of_mem _ hq)).2.1,
        (h q (List.mem_cons_of_mem _ hq)).2.2⟩)]
    simp [SKModel.setattr, List.append_assoc]

/-- Claim C2 counterexample: a parameter vector whose length matches the spec
list on which generate_model still raises — the raw value 5 is outside the
two-category criterion parameter, so the build raises ValueError. -/
theorem generate_model_matching_length_raises :
    ([(5 : ℚ)].length = dtGen.hp_space.length) ∧
    dtGen.generate_model [5] = Except.error "ValueError: criterion" := by
  constructor
  · rfl
  · rfl

/-- Claim C2 (amended): generate_model raises for every parameter vector whose
length mismatches the spec list; for a vector of matching length it raises
when some value is rejected by its parameter's in_range check (or a parameter
is foreign to the fresh model), and returns a model without raising when every
value is accepted, every parameter names an attribute of the fresh model and
every parameter has one of the three known types. -/
theorem generate_model_build_contract (gen : SKLearnModelGenerator) (pv : List ℚ) :
    (pv.length ≠ gen.hp_space.length → exceptOk (gen.generate_model pv) = false) ∧
    (pv.length = gen.hp_space.length →
      (∀ p ∈ pv.zip gen.hp_space, p.2.in_range p.1 = Except.ok true ∧
        gen.model_initializer.hasattr p.2.name = true ∧ p.2.param_type < 3) →
      exceptOk (gen.generate_model pv) = true) := by
  constructor
  · intro hne
    simp [SKLearnModelGenerator.generate_model, hne, exceptOk]
  · intro heq hall
    simp only [SKLearnModelGenerator.generate_model, heq, if_true, reduceIte]
    rw [setParams_ok (pv.zip gen.hp_space) gen.model_initializer hall]
    rfl

/-- Witness for C2 (amended): the empty vector against the one-parameter space
raises; the in-range vector [0] builds a model. -/
theorem generate_model_build_contract_witness :
    (([] : List ℚ).length ≠ dtGen.hp_space.length ∧
      exceptOk (dtGen.generate_model []) = false) ∧
    (([(0 : ℚ)].length = dtGen.hp_space.length ∧
      (∀ p ∈ [(0 : ℚ)].zip dtGen.hp_space, p.2.in_range p.1 = Except.ok true ∧
        dtGen.model_initializer.hasattr p.2.name = true ∧ p.2.param_type < 3)) ∧
      exceptOk (dtGen.generate_model [0]) = true) := by
  have h1 : ([] : List ℚ).length ≠ dtGen.hp_space.length := by decide
  have h2 : ([(0 : ℚ)].length = dtGen.hp_space.length) := rfl
  have h3 : ∀ p ∈ [(0 : ℚ)].zip dtGen.hp_space, p.2.in_range p.1 = Except.ok true ∧
      dtGen.model_initializer.hasattr p.2.name = true ∧ p.2.param_type < 3 := by
    intro p hp
    simp only [dtGen, List.zip_cons_cons, List.zip_nil_right, List.mem_singleton] at hp
    subst hp
    exact ⟨by rfl, by rfl, by norm_num [dtCriterion, HyperParameter.categorical_param, CATEGORICAL]⟩
  exact ⟨⟨h1, (generate_model_build_contract dtGen []).1 h1⟩,
    ⟨⟨h2, h3⟩, (generate_model_build_contract dtGen [0]).2 h2 h3⟩⟩

/-- Helper: in the reversed converted-assignment list of pairs with pairwise
distinct parameter names, lookup of a member pair's name finds exactly its own
converted assignment. -/
theorem find_reverse_map_unique :
    ∀ (pairs : List (ℚ × HyperParameter)),
      (pairs.map (fun p => p.2.name)).Nodup →
      ∀ p ∈ pairs,
        ((pairs.map (fun q => (q.2.name, convertedVal q))).reverse.find?
          (fun e => e.1 == p.2.name)) = some (p.2.name, convertedVal p) := by
  intro pairs
  induction pairs with
  | nil => intro _ p hp; simp at hp
  | cons a t ih =>
    intro hnodup p hp
    simp only [List.map_cons, List.nodup_cons] at hnodup
    obtain ⟨hna, hnd⟩ := hnodup
    simp only [List.map_cons, List.reverse_cons, List.find?_append]
    rcases List.mem_cons.mp hp with rfl | hpt
    · have hnone : (List.map (fun q => (q.2.name, convertedVal q)) t).reverse.find?
          (fun e => e.1 == p.2.name) = Option.none := by
        rw [List.find?_eq_none]
        intro e he
        simp only [List.mem_reverse, List.mem_map] at he
        obtain ⟨q, hq, rfl⟩ := he
        intro hbeq
        apply hna
        rw [← show q.2.name = p.2.name from eq_of_beq hbeq]
        exact List.mem_map_of_mem _ hq
      rw [hnone]
      simp
    · rw [ih hnd p hpt]
      simp

/-- Claim C5: for a parameter vector of matching length whose every value is
accepted by in_range, over distinctly named parameters of known type that all
name attributes of the fresh model, generate_model returns a model on which
the attribute named after each spec equals convert_raw_param of the
corresponding vector entry. -/
theorem generate_model_sets_attributes (gen : SKLearnModelGenerator) (pv : List ℚ)
    (hlen : pv.length = gen.hp_space.length)
    (hnodup : (gen.hp_space.map HyperParameter.name).Nodup)
    (hvals : ∀ p ∈ pv.zip gen.hp_space, p.2.in_range p.1 = Except.ok true ∧
      gen.model_initializer.hasattr p.2.name = true ∧ p.2.param_type < 3) :
    ∃ m, gen.generate_model pv = Except.ok m ∧
      ∀ i (hi : i < gen.hp_space.length),
        (gen.hp_space.get ⟨i, hi⟩).convert_raw_param (pv.getD i 0)
          = Except.ok (convertedVal (pv.getD i 0, gen.hp_space.get ⟨i, hi⟩)) ∧
        m.getattr (gen.hp_space.get ⟨i, hi⟩).name
          = some (convertedVal (pv.getD i 0, gen.hp_space.get ⟨i, hi⟩)) := by
  have hzlen : (pv.zip gen.hp_space).length = gen.hp_space.length := by
    simp [List.length_zip, hlen]
  have hmapsnd : (pv.zip gen.hp_space).map Prod.snd = gen.hp_space :=
    List.map_snd_zip pv gen.hp_space (le_of_eq hlen.symm)
  have hnodup2 : ((pv.zip gen.hp_space).map (fun p => p.2.name)).Nodup := by
    have heq := congrArg (List.map HyperParameter.name) hmapsnd
    rw [List.map_map] at heq
    have hres : ((pv.zip gen.hp_space).map (HyperParameter.name ∘ Prod.snd)).Nodup := by
      rw [heq]
      exact hnodup
    exact hres
  refine ⟨⟨gen.model_initializer.attrs
      ++ (pv.zip gen.hp_space).map (fun p => (p.2.name, convertedVal p))⟩, ?_, ?_⟩
  · simp only [SKLearnModelGenerator.generate_model]
    rw [if_pos hlen, setParams_ok (pv.zip gen.hp_space) gen.model_initializer hvals]
  · intro i hi
    have hilt : i < (pv.zip gen.hp_space).length := by rw [hzlen]; exact hi
    have hpv : i < pv.length := by rw [hlen]; exact hi
    have hpair : (pv.zip gen.hp_space).get ⟨i, hilt⟩
        = (pv.getD i 0, gen.hp_space.get ⟨i, hi⟩) := by
      simp [List.get_eq_getElem, List.getElem_zip, List.getD_eq_getElem pv 0 hpv,
        List.getElem?_eq_getElem hpv]
    have hmem : (pv.getD i 0, gen.hp_space.get ⟨i, hi⟩) ∈ pv.zip gen.hp_space := by
      rw [← hpair]
      exact List.get_mem _ _ _
    obtain ⟨hin, hattr, htype⟩ := hvals _ hmem
    refine ⟨convert_ok_of_in_range _ _ htype hin, ?_⟩
    simp only [SKModel.getattr, List.reverse_append, List.find?_append]
    rw [show ((gen.hp_space.get ⟨i, hi⟩).name)
        = ((pv.getD i 0, gen.hp_space.get ⟨i, hi⟩) : ℚ × HyperParameter).2.name from rfl,
      find_reverse_map_unique (pv.zip gen.hp_space) hnodup2 _ hmem]
    simp

/-- Witness for C5: building from the vector [0] over the one-parameter
criterion space sets the criterion attribute to gini. -/
theorem generate_model_sets_attributes_witness :
    (([(0 : ℚ)].length = dtGen.hp_space.length) ∧
      (dtGen.hp_space.map HyperParameter.name).Nodup ∧
      (∀ p ∈ [(0 : ℚ)].zip dtGen.hp_space, p.2.in_range p.1 = Except.ok true ∧
        dtGen.model_initializer.hasattr p.2.name = true ∧ p.2.param_type < 3)) ∧
    (∃ m, dtGen.generate_model [0] = Except.ok m ∧
      ∀ i (hi : i < dtGen.hp_space.length),
        (dtGen.hp_space.get ⟨i, hi⟩).convert_raw_param ([(0 : ℚ)].getD i 0)
          = Except.ok (convertedVal ([(0 : ℚ)].getD i 0, dtGen.hp_space.get ⟨i, hi⟩)) ∧
        m.getattr (dtGen.hp_space.get ⟨i, hi⟩).name
          = some (convertedVal ([(0 : ℚ)].getD i 0, dtGen.hp_space.get ⟨i, hi⟩))) := by
  have hnodup : (dtGen.hp_space.map HyperParameter.name).Nodup := by
    simp [dtGen, dtCriterion, HyperParameter.categorical_param]
  have h3 : ∀ p ∈ [(0 : ℚ)].zip dtGen.hp_space, p.2.in_range p.1 = Except.ok true ∧
      dtGen.model_initializer.hasattr p.2.name = true ∧ p.2.param_type < 3 := by
    intro p hp
    simp only [dtGen, List.zip_cons_cons, List.zip_nil_right, List.mem_singleton] at hp
    subst hp
    exact ⟨by rfl, by rfl,
      by norm_num [dtCriterion, HyperParameter.categorical_param, CATEGORICAL]⟩
  exact ⟨⟨rfl, hnodup, h3⟩, generate_model_sets_attributes dtGen [0] rfl hnodup h3⟩

/-- Helper: each pull increments the total pull count by exactly one. -/
theorem sum_pullStep {k : ℕ} (pick : (Fin k → ℕ) → Fin k) (c : Fin k → ℕ) :
    (∑ j : Fin k, pullStep pick c j) = (∑ j : Fin k, c j) + 1 := by
  simp only [pullStep]
  rw [Finset.sum_update_of_mem (Finset.mem_univ (selectArm pick c)),
    Finset.sum_eq_sum_diff_singleton_add (Finset.mem_univ (selectArm pick c)) c]
  omega

/-- Helper: after n iterations the pull counts sum to n. -/
theorem sum_banditCounts {k : ℕ} (pick : (Fin k → ℕ) → Fin k) :
    ∀ n, (∑ j : Fin k, banditCounts pick n j) = n := by
  intro n
  induction n with
  | zero => simp [banditCounts]
  | succ n ih =>
    rw [show banditCounts pick (n + 1) = pullStep pick (banditCounts pick n) from rfl,
      sum_pullStep, ih]

/-- Helper: while some arm has a zero pull count, selection picks an arm with a
zero pull count (the forced-initialization phase). -/
theorem selectArm_zero {k : ℕ} (pick : (Fin k → ℕ) → Fin k) (c : Fin k → ℕ)
    (j0 : Fin k) (h : c j0 = 0) : c (selectArm pick c) = 0 := by
  cases hf : (List.finRange k).find? (fun j => decide (c j = 0)) with
  | some j =>
    have hj := List.find?_some hf
    simp only [decide_eq_true_eq] at hj
    simp [selectArm, hf, hj]
  | none =>
    exfalso
    rw [List.find?_eq_none] at hf
    exact (hf j0 (List.mem_finRange j0)) (by simpa using h)

/-- Helper: no arm's pull count decreases across one pull. -/
theorem pullStep_le {k : ℕ} (pick : (Fin k → ℕ) → Fin k) (c : Fin k → ℕ)
    (j : Fin k) : c j ≤ pullStep pick c j := by
  simp only [pullStep]
  rw [Function.update_apply]
  split
  · rename_i hj
    rw [hj]
    exact Nat.le_succ _
  · exact Nat.le_refl _

/-- Helper: pull counts are monotone in the iteration number. -/
theorem banditCounts_mono {k : ℕ} (pick : (Fin k → ℕ) → Fin k) (j : Fin k) :
    ∀ n1 n2, n1 ≤ n2 → banditCounts pick n1 j ≤ banditCounts pick n2 j := by
  intro n1 n2 h
  induction n2 with
  | zero =>
    have : n1 = 0 := Nat.le_zero.mp h
    rw [this]
  | succ m ih =>
    rcases Nat.eq_or_lt_of_le h with rfl | hlt
    · exact Nat.le_refl _
    · exact le_trans (ih (Nat.lt_succ_iff.mp hlt))
        (pullStep_le pick (banditCounts pick m) j)

/-- Helper: an arm pulled at least once stays pulled. -/
theorem filter_zero_subset {k : ℕ} (pick : (Fin k → ℕ) → Fin k) (n : ℕ) :
    (Finset.univ.filter (fun j : Fin k => banditCounts pick (n + 1) j = 0))
      ⊆ (Finset.univ.filter (fun j : Fin k => banditCounts pick n j = 0)) := by
  intro j hj
  simp only [Finset.mem_filter, Finset.mem_univ, true_and] at hj ⊢
  have hle := pullStep_le pick (banditCounts pick n) j
  rw [show banditCounts pick (n + 1) = pullStep pick (banditCounts pick n) from rfl] at hj
  omega

/-- Helper: after n iterations at most k - n arms remain unpulled. -/
theorem card_zero_le {k : ℕ} (pick : (Fin k → ℕ) → Fin k) :
    ∀ n, (Finset.univ.filter (fun j : Fin k => banditCounts pick n j = 0)).card
      ≤ k - n := by
  intro n
  induction n with
  | zero =>
    apply le_trans (Finset.card_filter_le _ _)
    simp
  | succ n ih =>
    by_cases hz : (Finset.univ.filter (fun j : Fin k => banditCounts pick n j = 0)) = ∅
    · calc (Finset.univ.filter (fun j : Fin k => banditCounts pick (n + 1) j = 0)).card
          ≤ (Finset.univ.filter (fun j : Fin k => banditCounts pick n j = 0)).card :=
            Finset.card_le_card (filter_zero_subset pick n)
        _ = 0 := by rw [hz]; rfl
        _ ≤ k - (n + 1) := Nat.zero_le _
    · obtain ⟨j0, hj0⟩ := Finset.nonempty_of_ne_empty hz
      have hj0z : banditCounts pick n j0 = 0 := (Finset.mem_filter.mp hj0).2
      have hsel : banditCounts pick n (selectArm pick (banditCounts pick n)) = 0 :=
        selectArm_zero pick (banditCounts pick n) j0 hj0z
      have hselmem : selectArm pick (banditCounts pick n)
          ∈ Finset.univ.filter (fun j : Fin k => banditCounts pick n j = 0) :=
        Finset.mem_filter.mpr ⟨Finset.mem_univ _, hsel⟩
      have hnot : selectArm pick (banditCounts pick n)
          ∉ Finset.univ.filter (fun j : Fin k => banditCounts pick (n + 1) j = 0) := by
        simp only [Finset.mem_filter, Finset.mem_univ, true_and]
        rw [show banditCounts pick (n + 1) = pullStep pick (banditCounts pick n) from rfl]
        simp [pullStep, Function.update_same]
      have hss : (Finset.univ.filter (fun j : Fin k => banditCounts pick (n + 1) j = 0))
          ⊂ (Finset.univ.filter (fun j : Fin k => banditCounts pick n j = 0)) :=
        ⟨filter_zero_subset pick n, fun hcon => hnot (hcon hselmem)⟩
      have hlt := Finset.card_lt_card hss
      omega

/-- Claim C3: for every selection policy, a fit run of budget B at least the
number of arms leaves per-arm pull counts that sum to exactly B, with every
arm pulled at least once. -/
theorem bandit_budget_sum_and_coverage {k : ℕ} (pick : (Fin k → ℕ) → Fin k)
    (B : ℕ) (hB : k ≤ B) :
    (∑ j : Fin k, banditCounts pick B j) = B ∧
    ∀ j : Fin k, 1 ≤ banditCounts pick B j := by
  refine ⟨sum_banditCounts pick B, ?_⟩
  intro j
  have hcard := card_zero_le pick k
  have hempty : (Finset.univ.filter (fun j : Fin k => banditCounts pick k j = 0)) = ∅ :=
    Finset.card_eq_zero.mp (Nat.le_zero.mp (by simpa using hcard))
  have hkj : banditCounts pick k j ≠ 0 := by
    intro h0
    have hmem : j ∈ Finset.univ.filter (fun j : Fin k => banditCounts pick k j = 0) :=
      Finset.mem_filter.mpr ⟨Finset.mem_univ j, h0⟩
    rw [hempty] at hmem
    exact Finset.not_mem_empty j hmem
  have hmono := banditCounts_mono pick j k B hB
  omega

/-- Witness for C3: two arms, budget three, under the constant policy that
always proposes arm 0. -/
theorem bandit_budget_sum_and_coverage_witness :
    ((2 : ℕ) ≤ 3) ∧
    ((∑ j : Fin 2, banditCounts (fun _ => (0 : Fin 2)) 3 j) = 3 ∧
      ∀ j : Fin 2, 1 ≤ banditCounts (fun _ => (0 : Fin 2)) 3 j) :=
  ⟨by decide, bandit_budget_sum_and_coverage (fun _ => (0 : Fin 2)) 3 (by decide)⟩

end AutoMLLab
